import Mathlib

/-!
# Camera models of `ultraman_photogrammetry`

A shallow embedding of `src/camera/camera_parametres.hpp`, `src/camera/camera_model.hpp`,
`src/camera/pinhole_model.hpp`, `src/camera/camera_type.hpp` and `src/utils/know_enum.hpp`.

Conventions of the embedding:

* the source's `double` is read over exact rational arithmetic (`ℚ`), so every definition
  is computable and the algebraic claims are statements of exact arithmetic;
* `Eigen::Vector2d` / `Eigen::Vector3d` are the structures `Vec2` / `Vec3`;
* `std::vector<double>` is `List ℚ`; an unchecked `v[i]` of the source is the partial read
  `v[i]?`, and a function that performs such a read returns `Option`: `none` stands for the
  out-of-bounds read, which the source leaves undefined;
* a mutating member function returns the new object next to its C++ return value;
* the unbounded `while` loop of `undistort` is run with an explicit iteration budget and a
  three-valued outcome that keeps "budget exhausted" apart from "undefined read";
* `Mat33` / `Mat34` are structures of rational entries; the square root of `normalized()`
  leaves the rationals, so the bearing vectors live in a linearly ordered field that receives
  the rationals and whose square-root function is an argument;
* `std::string` is `String`, searched and cut as a list of characters with indices computed
  modulo `2 ^ 64`; a C++ exception is the `error` case of `Except`; the signature string that
  the compiler substitutes for `__PRETTY_FUNCTION__` is an argument of the model.
-/

namespace photogrammetry
namespace camera

/-! ## Vectors -/

/-- Two-dimensional vector (`Vec2` of the source, an `Eigen::Vector2d`). -/
structure Vec2 where
  x : ℚ
  y : ℚ
  deriving DecidableEq, Repr

/-- Three-dimensional vector (`Vec3` of the source, an `Eigen::Vector3d`). -/
structure Vec3 where
  x : ℚ
  y : ℚ
  z : ℚ
  deriving DecidableEq, Repr

namespace Vec2

/-- Component-wise sum, Eigen's `operator+`. -/
def add (a b : Vec2) : Vec2 := ⟨a.x + b.x, a.y + b.y⟩

/-- Component-wise difference, Eigen's `operator-`. -/
def sub (a b : Vec2) : Vec2 := ⟨a.x - b.x, a.y - b.y⟩

instance : Add Vec2 := ⟨add⟩
instance : Sub Vec2 := ⟨sub⟩

/-- Manhattan norm, Eigen's `lpNorm<1>()`. -/
def lpNorm1 (a : Vec2) : ℚ := |a.x| + |a.y|

end Vec2

namespace Vec3

/-- Perspective division, Eigen's `hnormalized()`: the leading coordinates divided by the last. -/
def hnormalized (X : Vec3) : Vec2 := ⟨X.x / X.z, X.y / X.z⟩

end Vec3

/-! ## `camera_parametres.hpp` -/

/-- Tag of the camera family; the enumerators are numbered 0 to 6 in declaration order. -/
inductive CameraModelType where
  | NONE
  | PINHOLE_CAMERA_START
  | PINHOLE_CAMERA
  | PINHOLE_CAMERA_RADIAL1
  | PINHOLE_CAMERA_RADIAL3
  | PINHOLE_CAMERA_BROWN
  | PINHOLE_CAMERA_END
  deriving DecidableEq, Repr

namespace CameraModelType

/-- Underlying integer of an enumerator (`NONE = 0`, `PINHOLE_CAMERA_START = 1`, then counting). -/
def toNat : CameraModelType → Nat
  | NONE => 0
  | PINHOLE_CAMERA_START => 1
  | PINHOLE_CAMERA => 2
  | PINHOLE_CAMERA_RADIAL1 => 3
  | PINHOLE_CAMERA_RADIAL3 => 4
  | PINHOLE_CAMERA_BROWN => 5
  | PINHOLE_CAMERA_END => 6

end CameraModelType

/-- Range test of the pinhole family: strictly between the two markers. -/
def isPinhole (model_type : CameraModelType) : Bool :=
  decide (model_type.toNat > CameraModelType.PINHOLE_CAMERA_START.toNat) &&
    decide (model_type.toNat < CameraModelType.PINHOLE_CAMERA_END.toNat)

/-- Tagged parameter bundle handed to `InitCamera` (`PinholeCameraInitParams`, with the
`type_` field it inherits from `CameraParams`). -/
structure PinholeCameraInitParams where
  type_ : CameraModelType
  fx : ℚ := 0
  fy : ℚ := 0
  cx : ℚ := 0
  cy : ℚ := 0
  distortion : List ℚ := []
  deriving DecidableEq, Repr

/-- Intrinsic parameters: focal lengths, principal point, distortion coefficients. -/
structure PinholeIntrinsicParams where
  fx_ : ℚ
  fy_ : ℚ
  cx_ : ℚ
  cy_ : ℚ
  distortion_ : List ℚ
  deriving DecidableEq, Repr

namespace PinholeIntrinsicParams

/-- Value-initialised object, as produced by `std::make_unique<PinholeIntrinsicParams>()`. -/
def default : PinholeIntrinsicParams := ⟨0, 0, 0, 0, []⟩

def FocalLengthX (s : PinholeIntrinsicParams) : ℚ := s.fx_
def FocalLengthY (s : PinholeIntrinsicParams) : ℚ := s.fy_
def SetFocalLengthX (s : PinholeIntrinsicParams) (focal_length_x : ℚ) : PinholeIntrinsicParams :=
  { s with fx_ := focal_length_x }
def SetFocalLengthY (s : PinholeIntrinsicParams) (focal_length_y : ℚ) : PinholeIntrinsicParams :=
  { s with fy_ := focal_length_y }

def PrincipalPointX (s : PinholeIntrinsicParams) : ℚ := s.cx_
def PrincipalPointY (s : PinholeIntrinsicParams) : ℚ := s.cy_
def SetPrincipalPointX (s : PinholeIntrinsicParams) (cx : ℚ) : PinholeIntrinsicParams :=
  { s with cx_ := cx }
def SetPrincipalPointY (s : PinholeIntrinsicParams) (cy : ℚ) : PinholeIntrinsicParams :=
  { s with cy_ := cy }

def SetDistortion (s : PinholeIntrinsicParams) (distortion : List ℚ) : PinholeIntrinsicParams :=
  { s with distortion_ := distortion }
def DistortionParams (s : PinholeIntrinsicParams) : List ℚ := s.distortion_

/-- Member `InitCamera`: on a bundle of the pinhole family the five fields are overwritten and
`true` is returned; otherwise the object is left alone and `false` is returned. -/
def InitCamera (s : PinholeIntrinsicParams) (params : PinholeCameraInitParams) :
    Bool × PinholeIntrinsicParams :=
  if isPinhole params.type_ then
    let s := s.SetFocalLengthX params.fx
    let s := s.SetFocalLengthY params.fy
    let s := s.SetPrincipalPointX params.cx
    let s := s.SetPrincipalPointY params.cy
    let s := s.SetDistortion params.distortion
    (true, s)
  else
    (false, s)

end PinholeIntrinsicParams

/-! ## `camera_model.hpp` -/

namespace CameraModel

/-- Member `CameraModel<Derived>::project`, with the three members it reaches through the
`static_cast<Derived *>` passed as arguments. `distort` may perform an unchecked read. -/
def project (haveDistortion : Bool) (cam2ima : Vec2 → Vec2) (distort : Vec2 → Option Vec2)
    (X : Vec3) (ignore_distortion : Bool) : Option Vec2 :=
  if haveDistortion && !ignore_distortion then
    (distort X.hnormalized).map cam2ima
  else
    some (cam2ima X.hnormalized)

end CameraModel

/-! ## `pinhole_model.hpp`: the model without distortion -/

/-- Pinhole camera without distortion. -/
structure PinholeCameraModel where
  camera_id_ : Nat
  width_ : Nat
  height_ : Nat
  intrinsic_params_ : PinholeIntrinsicParams
  deriving DecidableEq, Repr

namespace PinholeCameraModel

def InitCamera (m : PinholeCameraModel) (params : PinholeCameraInitParams) :
    Bool × PinholeCameraModel :=
  let r := m.intrinsic_params_.InitCamera params
  (r.1, { m with intrinsic_params_ := r.2 })

/-- Constructor: fresh intrinsics, then `InitCamera`, whose result is dropped. -/
def new (camera_id width height : Nat) (params : PinholeCameraInitParams) : PinholeCameraModel :=
  (InitCamera ⟨camera_id, width, height, PinholeIntrinsicParams.default⟩ params).2

def DistortionParams (m : PinholeCameraModel) : List ℚ := m.intrinsic_params_.DistortionParams

def ima2cam (m : PinholeCameraModel) (point2d : Vec2) : Vec2 :=
  ⟨(point2d.x - m.intrinsic_params_.PrincipalPointX) / m.intrinsic_params_.FocalLengthX,
   (point2d.y - m.intrinsic_params_.PrincipalPointY) / m.intrinsic_params_.FocalLengthY⟩

def cam2ima (m : PinholeCameraModel) (point2d : Vec2) : Vec2 :=
  ⟨m.intrinsic_params_.FocalLengthX * point2d.x + m.intrinsic_params_.PrincipalPointX,
   m.intrinsic_params_.FocalLengthY * point2d.y + m.intrinsic_params_.PrincipalPointY⟩

def haveDistortion (_m : PinholeCameraModel) : Bool := false

def distort (_m : PinholeCameraModel) (point_undistorted : Vec2) : Vec2 := point_undistorted

def undistort (_m : PinholeCameraModel) (point_distorted : Vec2) : Vec2 := point_distorted

def getVariableParams (m : PinholeCameraModel) : List ℚ :=
  [m.intrinsic_params_.FocalLengthX, m.intrinsic_params_.FocalLengthY,
   m.intrinsic_params_.PrincipalPointX, m.intrinsic_params_.PrincipalPointY]

def VerifyModelSpecificParams (m : PinholeCameraModel) : Bool :=
  decide (m.getVariableParams.length = 4)

/-- Member `updateFromVariableParams`: the guard is `VerifyModelSpecificParams()` of the object
itself; the four reads of `variable_params` are unchecked. -/
def updateFromVariableParams (m : PinholeCameraModel) (variable_params : List ℚ) :
    Option (Bool × PinholeCameraModel) :=
  if m.VerifyModelSpecificParams then do
    let s := m.intrinsic_params_
    let s := s.SetFocalLengthX (← variable_params[0]?)
    let s := s.SetFocalLengthY (← variable_params[1]?)
    let s := s.SetPrincipalPointX (← variable_params[2]?)
    let s := s.SetPrincipalPointY (← variable_params[3]?)
    pure (true, { m with intrinsic_params_ := s })
  else
    pure (false, m)

/-- Member `project` inherited from `CameraModel<PinholeCameraModel>`. -/
def project (m : PinholeCameraModel) (X : Vec3) (ignore_distortion : Bool := false) :
    Option Vec2 :=
  CameraModel.project m.haveDistortion m.cam2ima (fun p => some (m.distort p)) X ignore_distortion

end PinholeCameraModel

/-! ## `pinhole_model.hpp`: the Brown-Conrady model -/

/-- Pinhole camera with Brown-Conrady distortion (radial `k1,k2,k3`, tangential `t1,t2`). -/
structure PinholeCameraBrown where
  camera_id_ : Nat
  width_ : Nat
  height_ : Nat
  intrinsic_params_ : PinholeIntrinsicParams
  deriving DecidableEq, Repr

/-- Outcome of running the `undistort` loop with an iteration budget. -/
inductive LoopOutcome where
  /-- The loop condition became false and the function returned this point. -/
  | returned (p : Vec2)
  /-- The budget ran out while the loop condition was still true. -/
  | running
  /-- An unchecked read went out of bounds. -/
  | undefinedRead
  deriving DecidableEq, Repr

namespace PinholeCameraBrown

def InitCamera (m : PinholeCameraBrown) (params : PinholeCameraInitParams) :
    Bool × PinholeCameraBrown :=
  let r := m.intrinsic_params_.InitCamera params
  (r.1, { m with intrinsic_params_ := r.2 })

/-- Constructor: fresh intrinsics, then `InitCamera`, whose result is dropped. -/
def new (camera_id width height : Nat) (params : PinholeCameraInitParams) : PinholeCameraBrown :=
  (InitCamera ⟨camera_id, width, height, PinholeIntrinsicParams.default⟩ params).2

def DistortionParams (m : PinholeCameraBrown) : List ℚ := m.intrinsic_params_.DistortionParams

def ima2cam (m : PinholeCameraBrown) (point2d : Vec2) : Vec2 :=
  ⟨(point2d.x - m.intrinsic_params_.PrincipalPointX) / m.intrinsic_params_.FocalLengthX,
   (point2d.y - m.intrinsic_params_.PrincipalPointY) / m.intrinsic_params_.FocalLengthY⟩

def cam2ima (m : PinholeCameraBrown) (point2d : Vec2) : Vec2 :=
  ⟨m.intrinsic_params_.FocalLengthX * point2d.x + m.intrinsic_params_.PrincipalPointX,
   m.intrinsic_params_.FocalLengthY * point2d.y + m.intrinsic_params_.PrincipalPointY⟩

def haveDistortion (_m : PinholeCameraBrown) : Bool := true

/-- The distortion kernel `DistortFunc`: the displacement of a normalised point. The five
coefficient reads are unchecked. -/
def DistortFunc (distortions : List ℚ) (point2d : Vec2) : Option Vec2 := do
  let k1 ← distortions[0]?
  let k2 ← distortions[1]?
  let k3 ← distortions[2]?
  let t1 ← distortions[3]?
  let t2 ← distortions[4]?
  let r2 := point2d.x * point2d.x + point2d.y * point2d.y
  let r4 := r2 * r2
  let r6 := r4 * r2
  let k_diff := k1 * r2 + k2 * r4 + k3 * r6
  let t_x := t2 * (r2 + 2 * point2d.x * point2d.x) + 2 * t1 * point2d.x * point2d.y
  let t_y := t1 * (r2 + 2 * point2d.y * point2d.y) + 2 * t2 * point2d.x * point2d.y
  pure ⟨point2d.x * k_diff + t_x, point2d.y * k_diff + t_y⟩

def distort (m : PinholeCameraBrown) (p : Vec2) : Option Vec2 :=
  (DistortFunc m.DistortionParams p).map (fun d => p + d)

/-- The tolerance `epsilon = 1e-10` of `undistort`. -/
def epsilon : ℚ := 1 / 10 ^ 10

/-- The `while` loop of `undistort` from the loop state `(p_u, d)`, for at most `fuel` tests of
the loop condition. -/
def undistortLoop (distortions : List ℚ) (point_distorted : Vec2) :
    Nat → Vec2 → Vec2 → LoopOutcome
  | 0, _, _ => LoopOutcome.running
  | fuel + 1, p_u, d =>
    if (p_u + d - point_distorted).lpNorm1 > epsilon then
      let p_u := point_distorted - d
      match DistortFunc distortions p_u with
      | some d => undistortLoop distortions point_distorted fuel p_u d
      | none => LoopOutcome.undefinedRead
    else
      LoopOutcome.returned p_u

/-- Member `undistort`: the fixed-point iteration `p_u := point_distorted - DistortFunc(p_u)`,
run for at most `fuel` tests of the loop condition. -/
def undistort (m : PinholeCameraBrown) (fuel : Nat) (point_distorted : Vec2) : LoopOutcome :=
  let p_u := point_distorted
  match DistortFunc m.DistortionParams p_u with
  | some d => undistortLoop m.DistortionParams point_distorted fuel p_u d
  | none => LoopOutcome.undefinedRead

def getVariableParams (m : PinholeCameraBrown) : List ℚ :=
  [m.intrinsic_params_.FocalLengthX, m.intrinsic_params_.FocalLengthY,
   m.intrinsic_params_.PrincipalPointX, m.intrinsic_params_.PrincipalPointY] ++
    m.intrinsic_params_.DistortionParams

def VerifyModelSpecificParams (m : PinholeCameraBrown) : Bool :=
  decide (m.getVariableParams.length = 9)

/-- Member `updateFromVariableParams`: the guard is `VerifyModelSpecificParams()` of the object
itself; the four reads of `variable_params` are unchecked, and `SetDistortion` receives the whole of
`variable_params`. -/
def updateFromVariableParams (m : PinholeCameraBrown) (variable_params : List ℚ) :
    Option (Bool × PinholeCameraBrown) :=
  if m.VerifyModelSpecificParams then do
    let s := m.intrinsic_params_
    let s := s.SetFocalLengthX (← variable_params[0]?)
    let s := s.SetFocalLengthY (← variable_params[1]?)
    let s := s.SetPrincipalPointX (← variable_params[2]?)
    let s := s.SetPrincipalPointY (← variable_params[3]?)
    let s := s.SetDistortion variable_params
    pure (true, { m with intrinsic_params_ := s })
  else
    pure (false, m)

/-- Member `project` inherited from `CameraModel<PinholeCameraBrown>`. -/
def project (m : PinholeCameraBrown) (X : Vec3) (ignore_distortion : Bool := false) :
    Option Vec2 :=
  CameraModel.project m.haveDistortion m.cam2ima m.distort X ignore_distortion

end PinholeCameraBrown

/-! ## Matrices and homogeneous vectors (the Eigen types behind `Mat33`, `Mat34`) -/

/-- Four-dimensional vector (`Eigen::Vector4d`), the homogeneous form of a `Vec3`. -/
structure Vec4 where
  x : ℚ
  y : ℚ
  z : ℚ
  w : ℚ
  deriving DecidableEq, Repr

/-- Matrix with 3 rows and 3 columns (`Mat33`); `mij` is the entry of row `i`, column `j`. -/
structure Mat33 where
  m00 : ℚ
  m01 : ℚ
  m02 : ℚ
  m10 : ℚ
  m11 : ℚ
  m12 : ℚ
  m20 : ℚ
  m21 : ℚ
  m22 : ℚ
  deriving DecidableEq, Repr

/-- Matrix with 3 rows and 4 columns (`Mat34`); `mij` is the entry of row `i`, column `j`. -/
structure Mat34 where
  m00 : ℚ
  m01 : ℚ
  m02 : ℚ
  m03 : ℚ
  m10 : ℚ
  m11 : ℚ
  m12 : ℚ
  m13 : ℚ
  m20 : ℚ
  m21 : ℚ
  m22 : ℚ
  m23 : ℚ
  deriving DecidableEq, Repr

namespace Vec2

/-- Homogeneous form, Eigen's `homogeneous()`: a trailing `1` is appended. -/
def homogeneous (p : Vec2) : Vec3 := ⟨p.x, p.y, 1⟩

end Vec2

namespace Vec3

/-- Component-wise sum, Eigen's `operator+`. -/
def add (a b : Vec3) : Vec3 := ⟨a.x + b.x, a.y + b.y, a.z + b.z⟩

/-- Component-wise difference, Eigen's `operator-`. -/
def sub (a b : Vec3) : Vec3 := ⟨a.x - b.x, a.y - b.y, a.z - b.z⟩

instance : Add Vec3 := ⟨add⟩
instance : Sub Vec3 := ⟨sub⟩

/-- The vector `Vec3::Zero()`. -/
def Zero : Vec3 := ⟨0, 0, 0⟩

/-- Homogeneous form, Eigen's `homogeneous()`: a trailing `1` is appended. -/
def homogeneous (X : Vec3) : Vec4 := ⟨X.x, X.y, X.z, 1⟩

/-- Squared Euclidean norm, Eigen's `squaredNorm()`. -/
def squaredNorm (v : Vec3) : ℚ := v.x * v.x + v.y * v.y + v.z * v.z

end Vec3

namespace Mat33

/-- The matrix `Mat33::Identity()`. -/
def Identity : Mat33 := ⟨1, 0, 0, 0, 1, 0, 0, 0, 1⟩

/-- Transposed matrix, Eigen's `transpose()`. -/
def transpose (A : Mat33) : Mat33 :=
  ⟨A.m00, A.m10, A.m20, A.m01, A.m11, A.m21, A.m02, A.m12, A.m22⟩

/-- Entry-wise negation, Eigen's unary `operator-`. -/
def neg (A : Mat33) : Mat33 :=
  ⟨-A.m00, -A.m01, -A.m02, -A.m10, -A.m11, -A.m12, -A.m20, -A.m21, -A.m22⟩

/-- Matrix product of two 3 by 3 matrices. -/
def mul (A B : Mat33) : Mat33 :=
  ⟨A.m00 * B.m00 + A.m01 * B.m10 + A.m02 * B.m20,
   A.m00 * B.m01 + A.m01 * B.m11 + A.m02 * B.m21,
   A.m00 * B.m02 + A.m01 * B.m12 + A.m02 * B.m22,
   A.m10 * B.m00 + A.m11 * B.m10 + A.m12 * B.m20,
   A.m10 * B.m01 + A.m11 * B.m11 + A.m12 * B.m21,
   A.m10 * B.m02 + A.m11 * B.m12 + A.m12 * B.m22,
   A.m20 * B.m00 + A.m21 * B.m10 + A.m22 * B.m20,
   A.m20 * B.m01 + A.m21 * B.m11 + A.m22 * B.m21,
   A.m20 * B.m02 + A.m21 * B.m12 + A.m22 * B.m22⟩

instance : Neg Mat33 := ⟨neg⟩
instance : Mul Mat33 := ⟨mul⟩

/-- Product of a 3 by 3 matrix with a column vector. -/
def mulVec (A : Mat33) (v : Vec3) : Vec3 :=
  ⟨A.m00 * v.x + A.m01 * v.y + A.m02 * v.z,
   A.m10 * v.x + A.m11 * v.y + A.m12 * v.z,
   A.m20 * v.x + A.m21 * v.y + A.m22 * v.z⟩

/-- Determinant of a 3 by 3 matrix, expanded along the first row. -/
def determinant (A : Mat33) : ℚ :=
  A.m00 * (A.m11 * A.m22 - A.m12 * A.m21) - A.m01 * (A.m10 * A.m22 - A.m12 * A.m20) +
    A.m02 * (A.m10 * A.m21 - A.m11 * A.m20)

/-- Inverse by cofactors, Eigen's `inverse()` for a fixed 3 by 3 matrix: the transposed
cofactor matrix divided by the determinant. -/
def inverse (A : Mat33) : Mat33 :=
  ⟨(A.m11 * A.m22 - A.m12 * A.m21) / A.determinant,
   (A.m02 * A.m21 - A.m01 * A.m22) / A.determinant,
   (A.m01 * A.m12 - A.m02 * A.m11) / A.determinant,
   (A.m12 * A.m20 - A.m10 * A.m22) / A.determinant,
   (A.m00 * A.m22 - A.m02 * A.m20) / A.determinant,
   (A.m02 * A.m10 - A.m00 * A.m12) / A.determinant,
   (A.m10 * A.m21 - A.m11 * A.m20) / A.determinant,
   (A.m01 * A.m20 - A.m00 * A.m21) / A.determinant,
   (A.m00 * A.m11 - A.m01 * A.m10) / A.determinant⟩

/-- Orthonormality of a rotation: the transpose is a two-sided inverse. -/
def IsOrthonormal (R : Mat33) : Prop :=
  R.transpose * R = Identity ∧ R * R.transpose = Identity

instance (R : Mat33) : Decidable R.IsOrthonormal := by
  unfold IsOrthonormal
  infer_instance

end Mat33

namespace Mat34

/-- Comma initialiser `(Mat34() << A, t).finished()`: the block `A` followed by the column `t`. -/
def ofBlocks (A : Mat33) (t : Vec3) : Mat34 :=
  ⟨A.m00, A.m01, A.m02, t.x, A.m10, A.m11, A.m12, t.y, A.m20, A.m21, A.m22, t.z⟩

/-- Product of a 3 by 4 matrix with a homogeneous column vector. -/
def mulVec (P : Mat34) (v : Vec4) : Vec3 :=
  ⟨P.m00 * v.x + P.m01 * v.y + P.m02 * v.z + P.m03 * v.w,
   P.m10 * v.x + P.m11 * v.y + P.m12 * v.z + P.m13 * v.w,
   P.m20 * v.x + P.m21 * v.y + P.m22 * v.z + P.m23 * v.w⟩

end Mat34

/-! ## `camera_parametres.hpp`: intrinsic matrix and extrinsic parameters -/

/-- Intrinsic matrix `K`, filled row by row with `fx_, 0, cx_, 0, fy_, cy_, 0, 0, 1`. -/
def PinholeIntrinsicParams.IntrinsicMatrix (s : PinholeIntrinsicParams) : Mat33 :=
  ⟨s.fx_, 0, s.cx_, 0, s.fy_, s.cy_, 0, 0, 1⟩

def PinholeIntrinsicParams.InverseIntrinsicMatrix (s : PinholeIntrinsicParams) : Mat33 :=
  s.IntrinsicMatrix.inverse

/-- Extrinsic parameters: rotation and camera centre, with translation `t = -R C`. -/
structure CameraExtrinsicParams where
  rotation_ : Mat33
  center_ : Vec3
  deriving DecidableEq, Repr

namespace CameraExtrinsicParams

/-- Constructor with its default arguments `Mat33::Identity()` and `Vec3::Zero()`. -/
def default : CameraExtrinsicParams := ⟨Mat33.Identity, Vec3.Zero⟩

def Rotation (e : CameraExtrinsicParams) : Mat33 := e.rotation_
def Center (e : CameraExtrinsicParams) : Vec3 := e.center_

def getTranslation (e : CameraExtrinsicParams) : Vec3 := (-e.rotation_).mulVec e.center_

def getExtrinsicMatrix (e : CameraExtrinsicParams) : Mat34 :=
  Mat34.ofBlocks e.rotation_ ((-e.rotation_).mulVec e.center_)

def getInverseMatrix (e : CameraExtrinsicParams) : Mat34 :=
  Mat34.ofBlocks e.rotation_.transpose (e.rotation_.transpose.mulVec e.center_)

/-- Member `operator*`. -/
def operatorMul (e other : CameraExtrinsicParams) : CameraExtrinsicParams :=
  ⟨e.rotation_ * other.rotation_, e.rotation_.mulVec other.center_ + e.center_⟩

instance : Mul CameraExtrinsicParams := ⟨operatorMul⟩

/-- Member template `operator()` on a batch of columns:
`rotation_ * (other.colwise() - center_)`. -/
def operatorCall (e : CameraExtrinsicParams) (other : List Vec3) : List Vec3 :=
  other.map (fun c => e.rotation_.mulVec (c - e.center_))

/-- Member `operator()` on a single `Vec3`: `rotation_.transpose() * (other + center_)`. -/
def operatorCallVec3 (e : CameraExtrinsicParams) (other : Vec3) : Vec3 :=
  e.rotation_.transpose.mulVec (other + e.center_)

end CameraExtrinsicParams

/-! ## `pinhole_model.hpp`: type tags and matrices of the two models -/

def PinholeCameraModel.getType (_m : PinholeCameraModel) : CameraModelType :=
  CameraModelType.PINHOLE_CAMERA_START

def PinholeCameraBrown.getType (_m : PinholeCameraBrown) : CameraModelType :=
  CameraModelType.PINHOLE_CAMERA_BROWN

def PinholeCameraModel.InverseIntrinsicsMatrix (m : PinholeCameraModel) : Mat33 :=
  m.intrinsic_params_.InverseIntrinsicMatrix

def PinholeCameraBrown.InverseIntrinsicsMatrix (m : PinholeCameraBrown) : Mat33 :=
  m.intrinsic_params_.InverseIntrinsicMatrix

/-- Three-dimensional vector with coordinates in a scalar type `α` that has square roots: the
type of the columns produced by `normalized()`. -/
structure Vec3Of (α : Type) where
  x : α
  y : α
  z : α

/-- Eigen's `normalized()`: with `z` the squared norm, the vector divided by `sqrt z` when
`z > 0`, and the vector itself otherwise. The rational coordinates are carried into a linearly
ordered field `α`, whose square-root function `sqrt` is an argument. -/
def Vec3.normalized {α : Type} [LinearOrderedField α] (sqrt : α → α) (v : Vec3) : Vec3Of α :=
  let z : α := (v.squaredNorm : α)
  if z > 0 then ⟨(v.x : α) / sqrt z, (v.y : α) / sqrt z, (v.z : α) / sqrt z⟩
  else ⟨(v.x : α), (v.y : α), (v.z : α)⟩

/-- Member `operator()` on a batch of pixel columns:
`(InverseIntrinsicsMatrix() * p.colwise().homogeneous()).colwise().normalized()`. -/
def PinholeCameraModel.operatorCall {α : Type} [LinearOrderedField α] (sqrt : α → α)
    (m : PinholeCameraModel) (p : List Vec2) : List (Vec3Of α) :=
  p.map (fun c => (m.InverseIntrinsicsMatrix.mulVec c.homogeneous).normalized sqrt)

/-- Member `operator()` on a batch of pixel columns:
`(InverseIntrinsicsMatrix() * p.colwise().homogeneous()).colwise().normalized()`. -/
def PinholeCameraBrown.operatorCall {α : Type} [LinearOrderedField α] (sqrt : α → α)
    (m : PinholeCameraBrown) (p : List Vec2) : List (Vec3Of α) :=
  p.map (fun c => (m.InverseIntrinsicsMatrix.mulVec c.homogeneous).normalized sqrt)

end camera

/-! ## `utils/know_enum.hpp` -/

/-- Exclusive upper end of the range of values that are scanned for a name. -/
def magic_enum_max_value : Int := 10

namespace utils

/-- Exceptions that leave the utility: `std::invalid_argument` with its message, thrown by the
utility itself, and `std::out_of_range`, thrown by `std::string::substr`. -/
inductive Exception where
  | invalid_argument (what : String)
  | out_of_range
  deriving DecidableEq, Repr

/-- An enum type `T` as the utility sees it: for each integer `N`, the signature string that
the compiler substitutes for `__PRETTY_FUNCTION__` in `get_enum_name_static<T, (T)N>`. The
string is produced by the compiler, not by the repository, and is an argument of the model. -/
structure EnumType where
  get_enum_name_static : Int → String

/-! ### The members of `std::string` used by the utility, on lists of characters -/

/-- The constant `std::string::npos`, the largest value of a 64-bit `size_t`. -/
def npos : Nat := 2 ^ 64 - 1

/-- Search of `pat` in `s` from the front, `i` being the index of the head of `s`. -/
def findFrom (pat : List Char) : List Char → Nat → Nat
  | [], i => if pat = [] then i else npos
  | c :: cs, i => if pat.isPrefixOf (c :: cs) = true then i else findFrom pat cs (i + 1)

/-- Member `find(pat)`: index of the first occurrence of `pat`, or `npos`. -/
def find (s pat : List Char) : Nat := findFrom pat s 0

/-- Search of a character of `chars` in `s`, `i` being the index of the head of `s`. -/
def findFirstOfFrom (chars : List Char) : List Char → Nat → Nat
  | [], _ => npos
  | c :: cs, i => if c ∈ chars then i else findFirstOfFrom chars cs (i + 1)

/-- Member `find_first_of(chars, pos)`: index of the first character at or after `pos` that
is one of `chars`, or `npos`. -/
def find_first_of (s chars : List Char) (pos : Nat) : Nat :=
  findFirstOfFrom chars (s.drop pos) pos

/-- Search of `pat` in `s` keeping the latest occurrence, `i` being the index of the head of
`s` and `best` the latest occurrence seen so far. -/
def rfindFrom (pat : List Char) : List Char → Nat → Nat → Nat
  | [], i, best => if pat = [] then i else best
  | c :: cs, i, best =>
    rfindFrom pat cs (i + 1) (if pat.isPrefixOf (c :: cs) = true then i else best)

/-- Member `rfind(pat)`: index of the last occurrence of `pat`, or `npos`. -/
def rfind (s pat : List Char) : Nat := rfindFrom pat s 0 npos

/-- Member `substr(pos, n)`: at most `n` characters from index `pos` on; `std::out_of_range`
when `pos` exceeds the length. -/
def substr (s : List Char) (pos n : Nat) : Except Exception (List Char) :=
  if pos > s.length then Except.error Exception.out_of_range
  else Except.ok ((s.drop pos).take n)

namespace detail

/-- Template `static_for<Begin, End>`: `func.call<N>()` for `N = Begin, …, End - 1`, here for
`count = End - Begin` steps. -/
def static_for_steps {σ : Type} (func : Int → σ → σ) : Nat → Int → σ → σ
  | 0, _, s => s
  | count + 1, Begin, s => static_for_steps func count (Begin + 1) (func Begin s)

/-- Template `static_for<Begin, End>`. -/
def static_for {σ : Type} (Begin End : Int) (func : Int → σ → σ) (s : σ) : σ :=
  static_for_steps func (End - Begin).toNat Begin s

/-- Member `get_enum_name_functor<T>::call<N>`, acting on the string `s_` it refers to. -/
def get_enum_name_functor_call (T : EnumType) (n_ : Int) (N : Int) (s_ : String) : String :=
  if n_ = N then T.get_enum_name_static N else s_

/-- Function `detail::get_enum_name<T, Begin, End>` in its clang and GCC branch: the signature
string of the matching `N`, cut down to the text between `N = ` and the next `;` or `]`, then
to what follows the last `::`. Index arithmetic is that of a 64-bit `size_t`. -/
def get_enum_name (T : EnumType) (Begin End : Int) (n : Int) : Except Exception String :=
  let s := static_for Begin End (get_enum_name_functor_call T n) ""
  if s.data = [] then
    Except.ok ""
  else
    let pos := find s.data "N = ".data
    let pos := (pos + 4) % 2 ^ 64
    let end_ := find_first_of s.data ";]".data pos
    match substr s.data pos ((end_ + 2 ^ 64 - pos) % 2 ^ 64) with
    | Except.error e => Except.error e
    | Except.ok s =>
      let last_colon := rfind s "::".data
      match substr s ((last_colon + 2) % 2 ^ 64) npos with
      | Except.error e => Except.error e
      | Except.ok s => Except.ok (String.mk s)

end detail

/-- Function `utils::get_enum_name<T>`: the name found in the range `0` to
`magic_enum_max_value`, or `std::invalid_argument` when that name is empty. -/
def get_enum_name (T : EnumType) (n : Int) : Except Exception String :=
  match detail.get_enum_name T 0 magic_enum_max_value n with
  | Except.error e => Except.error e
  | Except.ok s =>
    if s.data = [] then
      Except.error (Exception.invalid_argument ("Invalid enum value: " ++ toString n))
    else
      Except.ok s

/-- The enumerators of `TestEnum` in `know_enum_test.cc`, numbered from 0. -/
def TestEnumNames : List String :=
  ["Apple", "Banana", "Orange", "Pear", "Pineapple", "Mango", "Kiwi"]

/-- The enum type `TestEnum` of `know_enum_test.cc` with the signature strings of clang: an
enumerator is printed with its qualified name, any other value as a cast. -/
def TestEnum : EnumType :=
  ⟨fun N =>
    "const char *photogrammetry::utils::detail::get_enum_name_static() [T = TestEnum, N = " ++
      (match TestEnumNames[N.toNat]? with
        | some name => if 0 ≤ N then "TestEnum::" ++ name else "(TestEnum)" ++ toString N
        | none => "(TestEnum)" ++ toString N) ++ "]"⟩

namespace detail

/-- The `for` loop of `detail::enum_from_name<T, Begin, End>` from the value `i` on, for `count`
values of `i`: the first value whose name equals `name` is returned, an exception of
`get_enum_name` leaves the loop, and after the last value `std::invalid_argument` is thrown. -/
def enum_from_name_loop (T : EnumType) (name : String) : Nat → Int → Except Exception Int
  | 0, _ => Except.error (Exception.invalid_argument ("Invalid enum name: " ++ name))
  | count + 1, i =>
    match utils.get_enum_name T i with
    | Except.error e => Except.error e
    | Except.ok s =>
      if s = name then Except.ok i else enum_from_name_loop T name count (i + 1)

/-- Function `detail::enum_from_name<T, Begin, End>`: the loop runs over `i = Begin, …, End`,
both ends included. -/
def enum_from_name (T : EnumType) (Begin End : Int) (name : String) : Except Exception Int :=
  enum_from_name_loop T name (End + 1 - Begin).toNat Begin

end detail

/-- Function `utils::enum_from_name<T>`: `std::invalid_argument` on the empty string, otherwise
the lookup over `0` to `magic_enum_max_value`. -/
def enum_from_name (T : EnumType) (name : String) : Except Exception Int :=
  if name.data = [] then
    Except.error (Exception.invalid_argument ("Invalid enum name: " ++ name))
  else
    detail.enum_from_name T 0 magic_enum_max_value name

end utils

namespace camera

/-! ## `camera_parametres.hpp`: the joint setter of the principal point -/

/-- Member `SetPrincipalPoint(cx, cy)`: its body is `cx_ = cx;`, the second argument is not
used. -/
def PinholeIntrinsicParams.SetPrincipalPoint (s : PinholeIntrinsicParams) (cx _cy : ℚ) :
    PinholeIntrinsicParams :=
  { s with cx_ := cx }

/-! ## `camera_type.hpp` -/

/-- The enumerators of `kCameraType`, numbered from 0. -/
def kCameraTypeNames : List String :=
  ["CameraSimplePinholeModel", "CameraSimpleRadialDistortionPinholeModel",
   "CameraRadialDistortionPinholeModel", "CameraRadialTangentialDistortionPinholeModel",
   "CameraBrownConradyDistortionPinholeModel", "CameraFisheyeModel"]

/-- The enum type `kCameraType` with the signature strings of clang: an enumerator is printed
with its qualified name, any other value as a cast. -/
def kCameraType : utils.EnumType :=
  ⟨fun N =>
    "const char *photogrammetry::utils::detail::get_enum_name_static() " ++
      "[T = photogrammetry::camera::kCameraType, N = " ++
      (match kCameraTypeNames[N.toNat]? with
        | some name =>
          if 0 ≤ N then "photogrammetry::camera::kCameraType::" ++ name
          else "(photogrammetry::camera::kCameraType)" ++ toString N
        | none => "(photogrammetry::camera::kCameraType)" ++ toString N) ++ "]"⟩

/-- Function `is_camera_type_valid`: between `CameraSimplePinholeModel` (0) and
`CameraFisheyeModel` (5), both included. -/
def is_camera_type_valid (type : Int) : Bool :=
  decide (type ≥ 0) && decide (type ≤ 5)

/-- Function `get_camera_type_name`; `T` carries the signature strings of `kCameraType`. -/
def get_camera_type_name (T : utils.EnumType) (type : Int) : Except utils.Exception String :=
  utils.get_enum_name T type

/-- Function `is_camera_model_name_valid`: the value found by `enum_from_name<kCameraType>` is
handed to `is_camera_type_valid`; an exception of the lookup is not caught. `T` carries the
signature strings of `kCameraType`. -/
def is_camera_model_name_valid (T : utils.EnumType) (camera_model_name : String) :
    Except utils.Exception Bool :=
  match utils.enum_from_name T camera_model_name with
  | Except.error e => Except.error e
  | Except.ok camera_type => Except.ok (is_camera_type_valid camera_type)

/-- Function `get_camera_type_from_camera_model_name`; `T` carries the signature strings of
`kCameraType`. -/
def get_camera_type_from_camera_model_name (T : utils.EnumType) (camera_model_name : String) :
    Except utils.Exception Int :=
  utils.enum_from_name T camera_model_name

/-! ## Call sequences -/

/-- A sequence of `updateFromVariableParams` calls on the model without distortion, return
values dropped; `none` as soon as one call performs an out-of-bounds read. -/
def PinholeCameraModel.updates (m : PinholeCameraModel) :
    List (List ℚ) → Option PinholeCameraModel
  | [] => some m
  | v :: vs =>
    match m.updateFromVariableParams v with
    | some r => PinholeCameraModel.updates r.2 vs
    | none => none

/-! ## Basic facts -/

theorem PinholeCameraModel.getVariableParams_length_four (m : PinholeCameraModel) :
    m.getVariableParams.length = 4 := rfl

theorem PinholeCameraModel.verify_eq_true (m : PinholeCameraModel) :
    m.VerifyModelSpecificParams = true := rfl

theorem PinholeCameraBrown.getVariableParams_length_add (m : PinholeCameraBrown) :
    m.getVariableParams.length = 4 + m.DistortionParams.length := by
  simp only [PinholeCameraBrown.getVariableParams, PinholeCameraBrown.DistortionParams,
    List.length_append, List.length_cons, List.length_nil]

theorem PinholeCameraBrown.verify_iff (m : PinholeCameraBrown) :
    m.VerifyModelSpecificParams = true ↔ m.DistortionParams.length = 5 := by
  simp only [PinholeCameraBrown.VerifyModelSpecificParams, decide_eq_true_eq,
    PinholeCameraBrown.getVariableParams_length_add]
  omega

theorem PinholeCameraModel.updates_length (vs : List (List ℚ)) :
    ∀ m m1 : PinholeCameraModel, m.updates vs = some m1 → m1.getVariableParams.length = 4 := by
  intro _ m1 _
  exact m1.getVariableParams_length_four

/-- Kernel on a list of exactly five coefficients, with the reads resolved. -/
theorem PinholeCameraBrown.DistortFunc_five (k1 k2 k3 t1 t2 x y : ℚ) :
    PinholeCameraBrown.DistortFunc [k1, k2, k3, t1, t2] ⟨x, y⟩ =
      some ⟨x * (k1 * (x * x + y * y) + k2 * ((x * x + y * y) * (x * x + y * y)) +
              k3 * ((x * x + y * y) * (x * x + y * y) * (x * x + y * y))) +
            (t2 * (x * x + y * y + 2 * x * x) + 2 * t1 * x * y),
           y * (k1 * (x * x + y * y) + k2 * ((x * x + y * y) * (x * x + y * y)) +
              k3 * ((x * x + y * y) * (x * x + y * y) * (x * x + y * y))) +
            (t1 * (x * x + y * y + 2 * y * y) + 2 * t2 * x * y)⟩ := by
  simp [PinholeCameraBrown.DistortFunc]

theorem Vec2.add_def (a b : Vec2) : a + b = ⟨a.x + b.x, a.y + b.y⟩ := rfl

theorem Vec2.sub_def (a b : Vec2) : a - b = ⟨a.x - b.x, a.y - b.y⟩ := rfl

/-! ## Parameter-vector marshalling (C1, C2, C3) -/

/-- C1, evaluated on the code. A freshly constructed model without distortion receives a vector
of length 5 and a freshly constructed Brown model holding 5 coefficients receives a vector of
length 10: in both cases
`updateFromVariableParams` returns `true` and overwrites the stored parameters, because its
guard inspects the stored parameter count and never the length of the incoming vector. -/
theorem C1_update_accepts_wrong_length :
    (PinholeCameraModel.new 0 640 480
        { type_ := CameraModelType.PINHOLE_CAMERA,
          fx := 1000, fy := 1000, cx := 320, cy := 240 }).updateFromVariableParams
          [1, 2, 3, 4, 5] =
        some (true, ⟨0, 640, 480, ⟨1, 2, 3, 4, []⟩⟩) ∧
      (PinholeCameraBrown.new 0 640 480
        { type_ := CameraModelType.PINHOLE_CAMERA_BROWN,
          fx := 1000, fy := 1000, cx := 320, cy := 240,
          distortion := [0, 0, 0, 0, 0] }).updateFromVariableParams
          [1, 2, 3, 4, 5, 6, 7, 8, 9, 10] =
        some (true, ⟨0, 640, 480, ⟨1, 2, 3, 4, [1, 2, 3, 4, 5, 6, 7, 8, 9, 10]⟩⟩) := by
  constructor <;> rfl

/-- C2, evaluated on the code. A freshly constructed Brown model holding 5 coefficients receives
the vector
`[1, …, 9]`: the call returns `true` and sets `fx, fy, cx, cy` to the first four entries, but
the stored coefficient list becomes the whole vector of 9 entries, not its last 5, and the
model no longer passes `VerifyModelSpecificParams`. -/
theorem C2_update_stores_whole_vector :
    ∃ m1 : PinholeCameraBrown,
      (PinholeCameraBrown.new 0 640 480
        { type_ := CameraModelType.PINHOLE_CAMERA_BROWN,
          fx := 1000, fy := 1000, cx := 320, cy := 240,
          distortion := [0, 0, 0, 0, 0] }).updateFromVariableParams
          [1, 2, 3, 4, 5, 6, 7, 8, 9] = some (true, m1) ∧
      m1.intrinsic_params_.fx_ = 1 ∧ m1.intrinsic_params_.fy_ = 2 ∧
      m1.intrinsic_params_.cx_ = 3 ∧ m1.intrinsic_params_.cy_ = 4 ∧
      m1.DistortionParams = [1, 2, 3, 4, 5, 6, 7, 8, 9] ∧
      m1.DistortionParams ≠ [5, 6, 7, 8, 9] ∧
      m1.VerifyModelSpecificParams = false := by
  refine ⟨⟨0, 640, 480, ⟨1, 2, 3, 4, [1, 2, 3, 4, 5, 6, 7, 8, 9]⟩⟩,
    rfl, rfl, rfl, rfl, rfl, rfl, ?_, rfl⟩
  simp [PinholeCameraBrown.DistortionParams, PinholeIntrinsicParams.DistortionParams]

/-- C3 as stated fails: a Brown model initialised from a bundle of the pinhole family that
carries no distortion coefficients has a parameter vector of length 4, not 9. -/
theorem C3_brown_init_without_coefficients :
    isPinhole CameraModelType.PINHOLE_CAMERA_BROWN = true ∧
      (PinholeCameraBrown.new 0 640 480
          { type_ := CameraModelType.PINHOLE_CAMERA_BROWN,
            fx := 1000, fy := 1000, cx := 320, cy := 240 }).getVariableParams.length = 4 ∧
      (PinholeCameraBrown.new 0 640 480
          { type_ := CameraModelType.PINHOLE_CAMERA_BROWN,
            fx := 1000, fy := 1000, cx := 320, cy := 240 }).VerifyModelSpecificParams = false := by
  refine ⟨rfl, rfl, rfl⟩

/-- C3, amended. After `InitCamera` with a bundle of the pinhole family and any sequence of
`updateFromVariableParams` calls the model without distortion has a parameter vector of
length 4. Directly after `InitCamera` with such a bundle the Brown model has a parameter
vector of length 4 plus the number of coefficients in the bundle, so the length is 9, and
`VerifyModelSpecificParams` holds, exactly when the bundle carries 5 coefficients. -/
theorem C3_parameter_count (mp mp1 : PinholeCameraModel) (mb : PinholeCameraBrown)
    (params : PinholeCameraInitParams) (vs : List (List ℚ))
    (hfam : isPinhole params.type_ = true)
    (hrun : (mp.InitCamera params).2.updates vs = some mp1) :
    mp1.getVariableParams.length = 4 ∧ mp1.VerifyModelSpecificParams = true ∧
      (mb.InitCamera params).1 = true ∧
      (mb.InitCamera params).2.getVariableParams.length = 4 + params.distortion.length ∧
      ((mb.InitCamera params).2.getVariableParams.length = 9 ↔ params.distortion.length = 5) ∧
      ((mb.InitCamera params).2.VerifyModelSpecificParams = true ↔
        params.distortion.length = 5) := by
  have hd : (mb.InitCamera params).2.DistortionParams = params.distortion := by
    simp [PinholeCameraBrown.InitCamera, PinholeIntrinsicParams.InitCamera, hfam,
      PinholeCameraBrown.DistortionParams, PinholeIntrinsicParams.DistortionParams,
      PinholeIntrinsicParams.SetDistortion]
  have hl := (mb.InitCamera params).2.getVariableParams_length_add
  rw [hd] at hl
  refine ⟨PinholeCameraModel.updates_length vs _ _ hrun, mp1.verify_eq_true, ?_, hl, ?_, ?_⟩
  · simp [PinholeCameraBrown.InitCamera, PinholeIntrinsicParams.InitCamera, hfam]
  · rw [hl]; omega
  · rw [PinholeCameraBrown.verify_iff, hd]

/-- Witness of C3, amended: a Brown-tagged bundle with 5 coefficients; the model without
distortion built from it takes two updates, the Brown model built from it has 9 parameters. -/
theorem C3_parameter_count_witness :
    isPinhole CameraModelType.PINHOLE_CAMERA_BROWN = true ∧
      (PinholeCameraModel.InitCamera ⟨0, 640, 480, PinholeIntrinsicParams.default⟩
          { type_ := CameraModelType.PINHOLE_CAMERA_BROWN, fx := 1000, fy := 1000,
            cx := 320, cy := 240, distortion := [0, 0, 0, 0, 0] }).2.updates
          [[1, 2, 3, 4], [5, 6, 7, 8, 9]] =
        some ⟨0, 640, 480, ⟨5, 6, 7, 8, [0, 0, 0, 0, 0]⟩⟩ ∧
      (PinholeCameraBrown.InitCamera ⟨0, 640, 480, PinholeIntrinsicParams.default⟩
          { type_ := CameraModelType.PINHOLE_CAMERA_BROWN, fx := 1000, fy := 1000,
            cx := 320, cy := 240, distortion := [0, 0, 0, 0, 0] }).2.getVariableParams.length =
        4 + 5 :=
  ⟨rfl, rfl,
   (C3_parameter_count ⟨0, 640, 480, PinholeIntrinsicParams.default⟩
      ⟨0, 640, 480, ⟨5, 6, 7, 8, [0, 0, 0, 0, 0]⟩⟩
      ⟨0, 640, 480, PinholeIntrinsicParams.default⟩
      { type_ := CameraModelType.PINHOLE_CAMERA_BROWN, fx := 1000, fy := 1000,
        cx := 320, cy := 240, distortion := [0, 0, 0, 0, 0] }
      [[1, 2, 3, 4], [5, 6, 7, 8, 9]] rfl rfl).2.2.2.1⟩

/-! ## Intrinsic mapping and projection (C4, C5, C6) -/

/-- C4. For both variants, with nonzero focal lengths, `cam2ima` and `ima2cam` undo each other
at every point, `cam2ima p = (fx * p.x + cx, fy * p.y + cy)`, and neither map changes when the
stored distortion coefficients are replaced by any other list. -/
theorem C4_intrinsic_round_trip (id w h : Nat) (fx fy cx cy : ℚ) (dist dist1 : List ℚ)
    (p : Vec2) (hfx : fx ≠ 0) (hfy : fy ≠ 0) :
    (PinholeCameraModel.cam2ima ⟨id, w, h, ⟨fx, fy, cx, cy, dist⟩⟩
        (PinholeCameraModel.ima2cam ⟨id, w, h, ⟨fx, fy, cx, cy, dist⟩⟩ p) = p ∧
      PinholeCameraModel.ima2cam ⟨id, w, h, ⟨fx, fy, cx, cy, dist⟩⟩
        (PinholeCameraModel.cam2ima ⟨id, w, h, ⟨fx, fy, cx, cy, dist⟩⟩ p) = p ∧
      PinholeCameraBrown.cam2ima ⟨id, w, h, ⟨fx, fy, cx, cy, dist⟩⟩
        (PinholeCameraBrown.ima2cam ⟨id, w, h, ⟨fx, fy, cx, cy, dist⟩⟩ p) = p ∧
      PinholeCameraBrown.ima2cam ⟨id, w, h, ⟨fx, fy, cx, cy, dist⟩⟩
        (PinholeCameraBrown.cam2ima ⟨id, w, h, ⟨fx, fy, cx, cy, dist⟩⟩ p) = p) ∧
    (PinholeCameraModel.cam2ima ⟨id, w, h, ⟨fx, fy, cx, cy, dist⟩⟩ p =
        ⟨fx * p.x + cx, fy * p.y + cy⟩ ∧
      PinholeCameraBrown.cam2ima ⟨id, w, h, ⟨fx, fy, cx, cy, dist⟩⟩ p =
        ⟨fx * p.x + cx, fy * p.y + cy⟩) ∧
    (PinholeCameraModel.cam2ima ⟨id, w, h, ⟨fx, fy, cx, cy, dist1⟩⟩ p =
        PinholeCameraModel.cam2ima ⟨id, w, h, ⟨fx, fy, cx, cy, dist⟩⟩ p ∧
      PinholeCameraModel.ima2cam ⟨id, w, h, ⟨fx, fy, cx, cy, dist1⟩⟩ p =
        PinholeCameraModel.ima2cam ⟨id, w, h, ⟨fx, fy, cx, cy, dist⟩⟩ p ∧
      PinholeCameraBrown.cam2ima ⟨id, w, h, ⟨fx, fy, cx, cy, dist1⟩⟩ p =
        PinholeCameraBrown.cam2ima ⟨id, w, h, ⟨fx, fy, cx, cy, dist⟩⟩ p ∧
      PinholeCameraBrown.ima2cam ⟨id, w, h, ⟨fx, fy, cx, cy, dist1⟩⟩ p =
        PinholeCameraBrown.ima2cam ⟨id, w, h, ⟨fx, fy, cx, cy, dist⟩⟩ p) := by
  obtain ⟨px, py⟩ := p
  have e1 : fx * ((px - cx) / fx) + cx = px := by field_simp
  have e2 : fy * ((py - cy) / fy) + cy = py := by field_simp
  have e3 : (fx * px + cx - cx) / fx = px := by field_simp
  have e4 : (fy * py + cy - cy) / fy = py := by field_simp
  simp only [PinholeCameraModel.cam2ima, PinholeCameraModel.ima2cam, PinholeCameraBrown.cam2ima,
    PinholeCameraBrown.ima2cam, PinholeIntrinsicParams.FocalLengthX,
    PinholeIntrinsicParams.FocalLengthY, PinholeIntrinsicParams.PrincipalPointX,
    PinholeIntrinsicParams.PrincipalPointY, e1, e2, e3, e4, and_self]

/-- Witness of C4: scenario intrinsics `fx = fy = 1000`, `cx = 320`, `cy = 240` at the
pixel `(100, 50)`. -/
theorem C4_intrinsic_round_trip_witness :
    PinholeCameraBrown.cam2ima ⟨0, 640, 480, ⟨1000, 1000, 320, 240, [-1 / 10, 0, 0, 0, 0]⟩⟩
        (PinholeCameraBrown.ima2cam
          ⟨0, 640, 480, ⟨1000, 1000, 320, 240, [-1 / 10, 0, 0, 0, 0]⟩⟩ ⟨100, 50⟩) = ⟨100, 50⟩ :=
  (C4_intrinsic_round_trip 0 640 480 1000 1000 320 240 [-1 / 10, 0, 0, 0, 0] [] ⟨100, 50⟩
    (by norm_num) (by norm_num)).1.2.2.1

/-- C7. With coefficient list `[k1, k2, k3, t1, t2]` and `r2 = x^2 + y^2`, `distort` maps
`(x, y)` to `(x + x*(k1*r2 + k2*r2^2 + k3*r2^3) + t2*(r2 + 2x^2) + 2*t1*x*y,
y + y*(k1*r2 + k2*r2^2 + k3*r2^3) + t1*(r2 + 2y^2) + 2*t2*x*y)`. -/
theorem C7_distort_formula (id w h : Nat) (fx fy cx cy k1 k2 k3 t1 t2 x y : ℚ) :
    PinholeCameraBrown.distort ⟨id, w, h, ⟨fx, fy, cx, cy, [k1, k2, k3, t1, t2]⟩⟩ ⟨x, y⟩ =
      some ⟨x + x * (k1 * (x ^ 2 + y ^ 2) + k2 * (x ^ 2 + y ^ 2) ^ 2 + k3 * (x ^ 2 + y ^ 2) ^ 3) +
              t2 * ((x ^ 2 + y ^ 2) + 2 * x ^ 2) + 2 * t1 * x * y,
            y + y * (k1 * (x ^ 2 + y ^ 2) + k2 * (x ^ 2 + y ^ 2) ^ 2 + k3 * (x ^ 2 + y ^ 2) ^ 3) +
              t1 * ((x ^ 2 + y ^ 2) + 2 * y ^ 2) + 2 * t2 * x * y⟩ := by
  simp only [PinholeCameraBrown.distort, PinholeCameraBrown.DistortionParams,
    PinholeIntrinsicParams.DistortionParams, PinholeCameraBrown.DistortFunc_five, Option.map_some',
    Vec2.add_def, Option.some.injEq, Vec2.mk.injEq]
  constructor <;> ring

/-! ## The fixed-point iteration of `undistort` (C8, C9, C10) -/

/-- A run that returned keeps its result under any larger budget. -/
theorem PinholeCameraBrown.undistortLoop_mono (distortions : List ℚ) (p q : Vec2) :
    ∀ (fuel extra : Nat) (p_u d : Vec2),
      PinholeCameraBrown.undistortLoop distortions p fuel p_u d = LoopOutcome.returned q →
      PinholeCameraBrown.undistortLoop distortions p (fuel + extra) p_u d =
        LoopOutcome.returned q := by
  intro fuel
  induction fuel with
  | zero => intro extra p_u d h; simp [PinholeCameraBrown.undistortLoop] at h
  | succ n ih =>
    intro extra p_u d h
    rw [Nat.add_right_comm, PinholeCameraBrown.undistortLoop]
    rw [PinholeCameraBrown.undistortLoop] at h
    by_cases hc : (p_u + d - p).lpNorm1 > PinholeCameraBrown.epsilon
    · rw [if_pos hc] at h ⊢
      cases hd1 : PinholeCameraBrown.DistortFunc distortions (p - d) with
      | none => simp [hd1] at h
      | some d1 =>
        simp only [hd1] at h ⊢
        exact ih extra (p - d) d1 h
    · rw [if_neg hc] at h ⊢
      exact h

/-- The same for `undistort` itself. -/
theorem PinholeCameraBrown.undistort_mono (m : PinholeCameraBrown) (p q : Vec2)
    (fuel extra : Nat) (hret : m.undistort fuel p = LoopOutcome.returned q) :
    m.undistort (fuel + extra) p = LoopOutcome.returned q := by
  unfold PinholeCameraBrown.undistort at hret ⊢
  cases hd : PinholeCameraBrown.DistortFunc m.DistortionParams p with
  | none => simp [hd] at hret
  | some d0 =>
    simp only [hd] at hret ⊢
    exact PinholeCameraBrown.undistortLoop_mono _ p q fuel extra p d0 hret

/-- C9. Brown model with `k1 = -0.1` and the other coefficients zero: `distort (0.1, 0.1)` is
`(0.0998, 0.0998)`; the `undistort` iteration started there is still running after three tests
of the loop condition and returns at the fourth, under every budget of at least four, a point
whose two coordinates each differ from `0.1` by less than `1e-8`. -/
theorem C9_scenario_round_trip (id w h : Nat) (fx fy cx cy : ℚ) :
    PinholeCameraBrown.distort ⟨id, w, h, ⟨fx, fy, cx, cy, [-1 / 10, 0, 0, 0, 0]⟩⟩
        ⟨1 / 10, 1 / 10⟩ = some ⟨499 / 5000, 499 / 5000⟩ ∧
      PinholeCameraBrown.undistort ⟨id, w, h, ⟨fx, fy, cx, cy, [-1 / 10, 0, 0, 0, 0]⟩⟩ 3
        ⟨499 / 5000, 499 / 5000⟩ = LoopOutcome.running ∧
      ∃ q, (∀ extra,
          PinholeCameraBrown.undistort ⟨id, w, h, ⟨fx, fy, cx, cy, [-1 / 10, 0, 0, 0, 0]⟩⟩
            (4 + extra) ⟨499 / 5000, 499 / 5000⟩ = LoopOutcome.returned q) ∧
        |q.x - 1 / 10| < 1 / 10 ^ 8 ∧ |q.y - 1 / 10| < 1 / 10 ^ 8 := by
  have hrun : ∃ q,
      PinholeCameraBrown.undistort ⟨id, w, h, ⟨fx, fy, cx, cy, [-1 / 10, 0, 0, 0, 0]⟩⟩ 4
          ⟨499 / 5000, 499 / 5000⟩ = LoopOutcome.returned q ∧
        |q.x - 1 / 10| < 1 / 10 ^ 8 ∧ |q.y - 1 / 10| < 1 / 10 ^ 8 := by
    norm_num [PinholeCameraBrown.undistort, PinholeCameraBrown.undistortLoop,
      PinholeCameraBrown.DistortFunc_five, PinholeCameraBrown.DistortionParams,
      PinholeIntrinsicParams.DistortionParams, Vec2.add_def, Vec2.sub_def, Vec2.lpNorm1,
      PinholeCameraBrown.epsilon, abs_eq_max_neg, max_def]
  obtain ⟨q, hq, hx, hy⟩ := hrun
  refine ⟨?_, ?_, q, fun extra => PinholeCameraBrown.undistort_mono _ _ q 4 extra hq, hx, hy⟩
  · simp only [PinholeCameraBrown.distort, PinholeCameraBrown.DistortFunc_five,
      PinholeCameraBrown.DistortionParams, PinholeIntrinsicParams.DistortionParams, Vec2.add_def,
      Option.map_some', Option.some.injEq, Vec2.mk.injEq]
    norm_num
  · norm_num [PinholeCameraBrown.undistort, PinholeCameraBrown.undistortLoop,
      PinholeCameraBrown.DistortFunc_five, PinholeCameraBrown.DistortionParams,
      PinholeIntrinsicParams.DistortionParams, Vec2.add_def, Vec2.sub_def, Vec2.lpNorm1,
      PinholeCameraBrown.epsilon, abs_eq_max_neg, max_def]

theorem Vec3.add_coords (a b : Vec3) : a + b = ⟨a.x + b.x, a.y + b.y, a.z + b.z⟩ := rfl

theorem Vec3.sub_coords (a b : Vec3) : a - b = ⟨a.x - b.x, a.y - b.y, a.z - b.z⟩ := rfl

theorem Mat33.mul_def (A B : Mat33) : A * B = A.mul B := rfl

theorem Mat33.neg_def (A : Mat33) : -A = A.neg := rfl

theorem CameraExtrinsicParams.mul_operatorMul (a b : CameraExtrinsicParams) :
    a * b = a.operatorMul b := rfl

/-- What the single-point `operator()` computes: `Rᵀ x + Rᵀ C`, the centre rotated as well. -/
theorem CameraExtrinsicParams.operatorCallVec3_eq (e : CameraExtrinsicParams) (x : Vec3) :
    e.operatorCallVec3 x =
      e.rotation_.transpose.mulVec x + e.rotation_.transpose.mulVec e.center_ := by
  simp only [CameraExtrinsicParams.operatorCallVec3, Mat33.mulVec, Mat33.transpose,
    Vec3.add_coords, Vec3.mk.injEq]
  refine ⟨?_, ?_, ?_⟩ <;> ring

/-- C11, evaluated on the code. Rotation by a quarter turn about the optical axis, centre
`(1, 0, 0)`, world point `(0, 0, 0)`: the rotation is orthonormal, the world-to-camera image of
the point is `(0, -1, 0)`, and the single-point `operator()` sends it to `(-1, -1, 0)`, whereas
`Rᵀ x + C` gives back `(0, 0, 0)`. -/
theorem C11_single_point_operator_off_centre :
    Mat33.IsOrthonormal ⟨0, -1, 0, 1, 0, 0, 0, 0, 1⟩ ∧
      CameraExtrinsicParams.operatorCall ⟨⟨0, -1, 0, 1, 0, 0, 0, 0, 1⟩, ⟨1, 0, 0⟩⟩ [⟨0, 0, 0⟩] =
        [⟨0, -1, 0⟩] ∧
      CameraExtrinsicParams.operatorCallVec3 ⟨⟨0, -1, 0, 1, 0, 0, 0, 0, 1⟩, ⟨1, 0, 0⟩⟩ ⟨0, -1, 0⟩ =
        ⟨-1, -1, 0⟩ ∧
      CameraExtrinsicParams.operatorCallVec3 ⟨⟨0, -1, 0, 1, 0, 0, 0, 0, 1⟩, ⟨1, 0, 0⟩⟩ ⟨0, -1, 0⟩ ≠
        ⟨0, 0, 0⟩ ∧
      (Mat33.transpose ⟨0, -1, 0, 1, 0, 0, 0, 0, 1⟩).mulVec ⟨0, -1, 0⟩ + (⟨1, 0, 0⟩ : Vec3) =
        ⟨0, 0, 0⟩ := by
  refine ⟨?_, ?_, ?_, ?_, ?_⟩
  · constructor <;>
      norm_num [Mat33.mul_def, Mat33.mul, Mat33.transpose, Mat33.Identity]
  · norm_num [CameraExtrinsicParams.operatorCall, Mat33.mulVec, Vec3.sub_coords]
  · norm_num [CameraExtrinsicParams.operatorCallVec3, Mat33.mulVec, Mat33.transpose,
      Vec3.add_coords]
  · norm_num [CameraExtrinsicParams.operatorCallVec3, Mat33.mulVec, Mat33.transpose,
      Vec3.add_coords]
  · norm_num [Mat33.mulVec, Mat33.transpose, Vec3.add_coords]

/-- C12, evaluated on the code. Rotation by a quarter turn about the optical axis, centre
`(1, 0, 0)`, world point `(0, 0, 0)`: `getExtrinsicMatrix()` is `[R | -R C]` and sends the
point to `(0, -1, 0)`; `getInverseMatrix()` is `[Rᵀ | Rᵀ C]`, with last column `(0, -1, 0)`
instead of the centre, and sends that image to `(-1, -1, 0)`, not back to the point. -/
theorem C12_inverse_matrix_off_centre :
    Mat33.IsOrthonormal ⟨0, -1, 0, 1, 0, 0, 0, 0, 1⟩ ∧
      CameraExtrinsicParams.getExtrinsicMatrix ⟨⟨0, -1, 0, 1, 0, 0, 0, 0, 1⟩, ⟨1, 0, 0⟩⟩ =
        ⟨0, -1, 0, 0, 1, 0, 0, -1, 0, 0, 1, 0⟩ ∧
      CameraExtrinsicParams.getInverseMatrix ⟨⟨0, -1, 0, 1, 0, 0, 0, 0, 1⟩, ⟨1, 0, 0⟩⟩ =
        ⟨0, 1, 0, 0, -1, 0, 0, -1, 0, 0, 1, 0⟩ ∧
      (CameraExtrinsicParams.getExtrinsicMatrix ⟨⟨0, -1, 0, 1, 0, 0, 0, 0, 1⟩, ⟨1, 0, 0⟩⟩).mulVec
          (Vec3.homogeneous ⟨0, 0, 0⟩) = ⟨0, -1, 0⟩ ∧
      (CameraExtrinsicParams.getInverseMatrix ⟨⟨0, -1, 0, 1, 0, 0, 0, 0, 1⟩, ⟨1, 0, 0⟩⟩).mulVec
          (Vec3.homogeneous ⟨0, -1, 0⟩) = ⟨-1, -1, 0⟩ ∧
      (CameraExtrinsicParams.getInverseMatrix ⟨⟨0, -1, 0, 1, 0, 0, 0, 0, 1⟩, ⟨1, 0, 0⟩⟩).mulVec
          (Vec3.homogeneous ⟨0, -1, 0⟩) ≠ ⟨0, 0, 0⟩ := by
  refine ⟨?_, ?_, ?_, ?_, ?_, ?_⟩
  · constructor <;>
      norm_num [Mat33.mul_def, Mat33.mul, Mat33.transpose, Mat33.Identity]
  all_goals
    norm_num [CameraExtrinsicParams.getExtrinsicMatrix, CameraExtrinsicParams.getInverseMatrix,
      Mat34.ofBlocks, Mat34.mulVec, Mat33.mulVec, Mat33.transpose, Mat33.neg_def, Mat33.neg,
      Vec3.homogeneous]

/-- C13. Member `operator*` returns `(R1 R2, R1 C2 + C1)`; it is associative, the default
`(Identity, 0)` is neutral on both sides, and it is not commutative. -/
theorem C13_composition (a b c : CameraExtrinsicParams) :
    a * b = ⟨a.rotation_ * b.rotation_, a.rotation_.mulVec b.center_ + a.center_⟩ ∧
      (a * b) * c = a * (b * c) ∧
      CameraExtrinsicParams.default * a = a ∧
      a * CameraExtrinsicParams.default = a ∧
      ∃ u v : CameraExtrinsicParams, u * v ≠ v * u := by
  obtain ⟨⟨a00, a01, a02, a10, a11, a12, a20, a21, a22⟩, ⟨ax, ay, az⟩⟩ := a
  obtain ⟨⟨b00, b01, b02, b10, b11, b12, b20, b21, b22⟩, ⟨bx, b_y, bz⟩⟩ := b
  obtain ⟨⟨c00, c01, c02, c10, c11, c12, c20, c21, c22⟩, ⟨cx, cy, cz⟩⟩ := c
  refine ⟨rfl, ?_, ?_, ?_,
    ⟨⟨Mat33.Identity, ⟨1, 0, 0⟩⟩, ⟨⟨0, -1, 0, 1, 0, 0, 0, 0, 1⟩, ⟨0, 0, 0⟩⟩, ?_⟩⟩
  · simp only [CameraExtrinsicParams.mul_operatorMul, CameraExtrinsicParams.operatorMul,
      Mat33.mul_def, Mat33.mul, Mat33.mulVec, Vec3.add_coords, CameraExtrinsicParams.mk.injEq,
      Mat33.mk.injEq,
      Vec3.mk.injEq]
    refine ⟨⟨?_, ?_, ?_, ?_, ?_, ?_, ?_, ?_, ?_⟩, ?_, ?_, ?_⟩ <;> ring
  · simp [CameraExtrinsicParams.mul_operatorMul, CameraExtrinsicParams.operatorMul,
      CameraExtrinsicParams.default, Mat33.mul_def, Mat33.mul, Mat33.mulVec, Mat33.Identity,
      Vec3.Zero, Vec3.add_coords]
  · simp [CameraExtrinsicParams.mul_operatorMul, CameraExtrinsicParams.operatorMul,
      CameraExtrinsicParams.default, Mat33.mul_def, Mat33.mul, Mat33.mulVec, Mat33.Identity,
      Vec3.Zero, Vec3.add_coords]
  · norm_num [CameraExtrinsicParams.mul_operatorMul, CameraExtrinsicParams.operatorMul,
      Mat33.mul_def, Mat33.mul, Mat33.mulVec, Mat33.Identity, Vec3.add_coords]

/-! ## Projection matrix, initialisation and type tags (C14, C15, C16, C17, C19) -/

/-- C15. `InitCamera` succeeds exactly on bundles of the pinhole family; on success the five
intrinsic fields are the bundle's, on failure the intrinsics are those from before the call. The
two models forward the call to their intrinsics and keep their other members. -/
theorem C15_init_camera (s : PinholeIntrinsicParams) (params : PinholeCameraInitParams)
    (id w h : Nat) :
    s.InitCamera params =
        (if isPinhole params.type_ = true then
          (true, ⟨params.fx, params.fy, params.cx, params.cy, params.distortion⟩)
        else (false, s)) ∧
      ((s.InitCamera params).1 = true ↔ isPinhole params.type_ = true) ∧
      PinholeCameraModel.InitCamera ⟨id, w, h, s⟩ params =
        ((s.InitCamera params).1, ⟨id, w, h, (s.InitCamera params).2⟩) ∧
      PinholeCameraBrown.InitCamera ⟨id, w, h, s⟩ params =
        ((s.InitCamera params).1, ⟨id, w, h, (s.InitCamera params).2⟩) := by
  refine ⟨?_, ?_, rfl, rfl⟩
  · cases hfam : isPinhole params.type_ <;>
      simp [PinholeIntrinsicParams.InitCamera, hfam, PinholeIntrinsicParams.SetFocalLengthX,
        PinholeIntrinsicParams.SetFocalLengthY, PinholeIntrinsicParams.SetPrincipalPointX,
        PinholeIntrinsicParams.SetPrincipalPointY, PinholeIntrinsicParams.SetDistortion]
  · cases hfam : isPinhole params.type_ <;> simp [PinholeIntrinsicParams.InitCamera, hfam]

/-- C16, evaluated on the code. The model without distortion reports the range marker
`PINHOLE_CAMERA_START`, not `PINHOLE_CAMERA`, so `isPinhole` of its own tag is false; the Brown
model reports `PINHOLE_CAMERA_BROWN`, which is in the pinhole family. -/
theorem C16_type_tags (mp : PinholeCameraModel) (mb : PinholeCameraBrown) :
    mp.getType = CameraModelType.PINHOLE_CAMERA_START ∧
      mp.getType ≠ CameraModelType.PINHOLE_CAMERA ∧
      isPinhole mp.getType = false ∧
      mb.getType = CameraModelType.PINHOLE_CAMERA_BROWN ∧
      isPinhole mb.getType = true := by
  refine ⟨rfl, ?_, rfl, rfl, rfl⟩
  simp [PinholeCameraModel.getType]

/-- C17. The range test `isPinhole` holds exactly for `PINHOLE_CAMERA`,
`PINHOLE_CAMERA_RADIAL1`, `PINHOLE_CAMERA_RADIAL3` and `PINHOLE_CAMERA_BROWN`; it fails for
`NONE` and for the two markers `PINHOLE_CAMERA_START` and `PINHOLE_CAMERA_END`. -/
theorem C17_isPinhole_table (t : CameraModelType) :
    (isPinhole t = true ↔
        t = CameraModelType.PINHOLE_CAMERA ∨ t = CameraModelType.PINHOLE_CAMERA_RADIAL1 ∨
          t = CameraModelType.PINHOLE_CAMERA_RADIAL3 ∨ t = CameraModelType.PINHOLE_CAMERA_BROWN) ∧
      isPinhole CameraModelType.NONE = false ∧
      isPinhole CameraModelType.PINHOLE_CAMERA_START = false ∧
      isPinhole CameraModelType.PINHOLE_CAMERA_END = false := by
  refine ⟨?_, rfl, rfl, rfl⟩
  cases t <;> simp [isPinhole, CameraModelType.toNat]

/-- C19. On the model without distortion `distort` and `undistort` return their argument,
whatever intrinsics and distortion list the model stores. -/
theorem C19_no_distortion_identity (m : PinholeCameraModel) (p : Vec2) :
    m.distort p = p ∧ m.undistort p = p :=
  ⟨rfl, rfl⟩

/-! ## Bearing vectors (C18) -/

end camera

namespace utils

/-! ## Enum names (C20) -/

/-- What `static_for` leaves in the string of the functor: the signature string of `n` when
`n` is one of the values visited, the initial string otherwise. -/
theorem static_for_steps_functor (T : EnumType) (n : Int) :
    ∀ (count : Nat) (Begin : Int) (s : String),
      detail.static_for_steps (detail.get_enum_name_functor_call T n) count Begin s =
        if Begin ≤ n ∧ n < Begin + count then T.get_enum_name_static n else s := by
  intro count
  induction count with
  | zero =>
    intro Begin s
    have hfalse : ¬ (Begin ≤ n ∧ n < Begin + ((0 : Nat) : Int)) := by
      intro h
      have := h.1
      have := h.2
      omega
    rw [if_neg hfalse]
    rfl
  | succ k ih =>
    intro Begin s
    rw [detail.static_for_steps, ih]
    by_cases hn : n = Begin
    · subst hn
      have h1 : ¬ (n + 1 ≤ n ∧ n < n + 1 + (k : Int)) := by
        intro h
        have := h.1
        omega
      have h2 : n ≤ n ∧ n < n + ((k + 1 : Nat) : Int) := by
        constructor
        · exact le_refl n
        · push_cast
          omega
      rw [if_neg h1, if_pos h2]
      simp [detail.get_enum_name_functor_call]
    · have hs : detail.get_enum_name_functor_call T n Begin s = s := by
        simp [detail.get_enum_name_functor_call, hn]
      rw [hs]
      by_cases hc : Begin + 1 ≤ n ∧ n < Begin + 1 + (k : Int)
      · have hc2 : Begin ≤ n ∧ n < Begin + ((k + 1 : Nat) : Int) := by
          obtain ⟨ha, hb⟩ := hc
          constructor
          · omega
          · push_cast
            omega
        rw [if_pos hc, if_pos hc2]
      · have hc2 : ¬ (Begin ≤ n ∧ n < Begin + ((k + 1 : Nat) : Int)) := by
          intro h
          obtain ⟨ha, hb⟩ := h
          push_cast at hb
          apply hc
          constructor <;> omega
        rw [if_neg hc, if_neg hc2]

/-- The string scanned by `utils::get_enum_name`: values from `0` to `9` are visited. -/
theorem static_for_scanned (T : EnumType) (n : Int) :
    detail.static_for 0 magic_enum_max_value (detail.get_enum_name_functor_call T n) "" =
      if 0 ≤ n ∧ n < 10 then T.get_enum_name_static n else "" := by
  rw [detail.static_for, static_for_steps_functor]
  have h10 : ((magic_enum_max_value - 0).toNat : Int) = 10 := by
    simp [magic_enum_max_value]
  rw [h10]
  simp

/-- Outside the scanned range `get_enum_name` throws, whatever the enum type. -/
theorem get_enum_name_outside (T : EnumType) (m : Int) (hm : m < 0 ∨ 10 ≤ m) :
    get_enum_name T m =
      Except.error (Exception.invalid_argument ("Invalid enum value: " ++ toString m)) := by
  have hscan := static_for_scanned T m
  have hrange : ¬ (0 ≤ m ∧ m < 10) := by
    intro h
    obtain ⟨ha, hb⟩ := h
    omega
  rw [if_neg hrange] at hscan
  have hdet : detail.get_enum_name T 0 magic_enum_max_value m = Except.ok "" := by
    simp [detail.get_enum_name, hscan]
  simp [get_enum_name, hdet]

/-- A name returned by `get_enum_name` is not empty. -/
theorem get_enum_name_ok_data (T : EnumType) (i : Int) (s : String)
    (h : get_enum_name T i = Except.ok s) : s.data ≠ [] := by
  unfold get_enum_name at h
  cases hdet : detail.get_enum_name T 0 magic_enum_max_value i with
  | error e => simp [hdet] at h
  | ok r =>
    simp only [hdet] at h
    by_cases hr : r.data = []
    · simp [hr] at h
    · simp only [if_neg hr, Except.ok.injEq] at h
      rw [← h]
      exact hr

/-- The loop of `enum_from_name` returns the value `v` named `name` when every earlier value
has another name. -/
theorem enum_from_name_loop_found (T : EnumType) (name : String) (v : Int)
    (hv : get_enum_name T v = Except.ok name) :
    ∀ (count : Nat) (i : Int), i ≤ v → v < i + count →
      (∀ j : Int, i ≤ j → j < v → ∃ s, get_enum_name T j = Except.ok s ∧ s ≠ name) →
      detail.enum_from_name_loop T name count i = Except.ok v := by
  intro count
  induction count with
  | zero =>
    intro i hi hlt _
    simp only [Nat.cast_zero, add_zero] at hlt
    omega
  | succ k ih =>
    intro i hi hlt hbefore
    rw [detail.enum_from_name_loop]
    by_cases hiv : i = v
    · subst hiv
      simp [hv]
    · have hlt2 : i < v := lt_of_le_of_ne hi hiv
      obtain ⟨s, hs, hne⟩ := hbefore i (le_refl i) hlt2
      simp only [hs, if_neg hne]
      apply ih (i + 1)
      · omega
      · push_cast at hlt
        omega
      · intro j hj hjv
        exact hbefore j (by omega) hjv

/-- The loop of `enum_from_name` on a string that names no scanned value: it reaches the value
`10`, where `get_enum_name` throws. -/
theorem enum_from_name_loop_unknown (T : EnumType) (name : String)
    (hnone : ∀ j : Int, 0 ≤ j → j < 10 → ∃ s, get_enum_name T j = Except.ok s ∧ s ≠ name) :
    ∀ (count : Nat) (i : Int), 0 ≤ i → i ≤ 10 → 10 < i + count →
      detail.enum_from_name_loop T name count i =
        Except.error (Exception.invalid_argument "Invalid enum value: 10") := by
  intro count
  induction count with
  | zero =>
    intro i _ hi hlt
    simp only [Nat.cast_zero, add_zero] at hlt
    omega
  | succ k ih =>
    intro i h0 hi hlt
    rw [detail.enum_from_name_loop]
    by_cases h10 : i = 10
    · subst h10
      rw [get_enum_name_outside T 10 (Or.inr (le_refl 10))]
      rfl
    · obtain ⟨s, hs, hne⟩ := hnone i h0 (by omega)
      simp only [hs, if_neg hne]
      apply ih (i + 1)
      · omega
      · omega
      · push_cast at hlt
        omega

/-- On a non-empty string that names no scanned value, `enum_from_name` throws the exception
of `get_enum_name` at the value `10`, whatever the enum type. -/
theorem enum_from_name_unknown (T : EnumType) (name : String) (hname : name.data ≠ [])
    (hnone : ∀ j : Int, 0 ≤ j → j < 10 → ∃ s, get_enum_name T j = Except.ok s ∧ s ≠ name) :
    enum_from_name T name =
      Except.error (Exception.invalid_argument "Invalid enum value: 10") := by
  rw [enum_from_name, if_neg hname, detail.enum_from_name]
  apply enum_from_name_loop_unknown T name hnone
  · exact le_refl 0
  · norm_num
  · simp [magic_enum_max_value]

/-- C21. For an enum type whose values in `[0, 10)` all have names, pairwise distinct, and for
every value `v` in that range, `get_enum_name v` returns a name and `enum_from_name` of that
name returns `v`. -/
theorem C21_lookup_undoes_extraction (T : EnumType) (names : Int → String)
    (hnames : ∀ i : Int, 0 ≤ i → i < 10 → get_enum_name T i = Except.ok (names i))
    (hdistinct : ∀ i j : Int, 0 ≤ i → i < 10 → 0 ≤ j → j < 10 → names i = names j → i = j)
    (v : Int) (h0 : 0 ≤ v) (h10 : v < 10) :
    get_enum_name T v = Except.ok (names v) ∧ enum_from_name T (names v) = Except.ok v := by
  have hv := hnames v h0 h10
  refine ⟨hv, ?_⟩
  rw [enum_from_name, if_neg (get_enum_name_ok_data T v (names v) hv), detail.enum_from_name]
  apply enum_from_name_loop_found T (names v) v hv
  · exact h0
  · simp only [magic_enum_max_value]
    norm_num
    omega
  · intro j hj hjv
    refine ⟨names j, hnames j hj (by omega), ?_⟩
    intro heq
    have := hdistinct j v hj (by omega) h0 h10 heq
    omega

set_option maxRecDepth 100000 in
/-- Witness of C21: `TestEnum` with the signature strings of clang; `Apple`, `Pineapple` and
`Kiwi` are looked up as the values 0, 4 and 6. -/
theorem C21_lookup_undoes_extraction_witness :
    enum_from_name TestEnum "Apple" = Except.ok 0 ∧
      enum_from_name TestEnum "Pineapple" = Except.ok 4 ∧
      enum_from_name TestEnum "Kiwi" = Except.ok 6 ∧
      get_enum_name TestEnum 4 = Except.ok "Pineapple" :=
  ⟨rfl, rfl,
   (C21_lookup_undoes_extraction TestEnum
      (fun i => (["Apple", "Banana", "Orange", "Pear", "Pineapple", "Mango", "Kiwi",
        "TestEnum)7", "TestEnum)8", "TestEnum)9"] : List String).getD i.toNat "")
      (by intro i h0 h10; interval_cases i <;> rfl)
      (by intro i j hi0 hi10 hj0 hj10; interval_cases i <;> interval_cases j <;> decide)
      6 (by norm_num) (by norm_num)).2,
   (C21_lookup_undoes_extraction TestEnum
      (fun i => (["Apple", "Banana", "Orange", "Pear", "Pineapple", "Mango", "Kiwi",
        "TestEnum)7", "TestEnum)8", "TestEnum)9"] : List String).getD i.toNat "")
      (by intro i h0 h10; interval_cases i <;> rfl)
      (by intro i j hi0 hi10 hj0 hj10; interval_cases i <;> interval_cases j <;> decide)
      4 (by norm_num) (by norm_num)).1⟩

set_option maxRecDepth 100000 in
/-- C24, evaluated on the code. `TestEnum` with the signature strings of clang and the string
`Grape`, which names none of its values: `enum_from_name` throws `std::invalid_argument` with
the message `Invalid enum value: 10`, not `Invalid enum name: Grape`, because its loop runs up
to the value `10` included and `get_enum_name` throws there. On the empty string the message is
`Invalid enum name: `. -/
theorem C24_unknown_name_message :
    enum_from_name TestEnum "Grape" =
        Except.error (Exception.invalid_argument "Invalid enum value: 10") ∧
      enum_from_name TestEnum "Grape" ≠
        Except.error (Exception.invalid_argument "Invalid enum name: Grape") ∧
      enum_from_name TestEnum "" =
        Except.error (Exception.invalid_argument "Invalid enum name: ") := by
  have hrun : enum_from_name TestEnum "Grape" =
      Except.error (Exception.invalid_argument "Invalid enum value: 10") := rfl
  refine ⟨hrun, ?_, rfl⟩
  rw [hrun]
  intro hc
  injection hc with hc
  injection hc with hc
  exact absurd hc (by decide)

end utils

namespace camera

/-! ## Camera type names, composition of poses, principal point (C22, C23, C25) -/

set_option maxRecDepth 100000 in
/-- C22, evaluated on the code. `is_camera_model_name_valid` throws on the empty string,
whatever the signature strings; with those of clang it throws on `NotACamera`, returns `true`
on each of the six enumerator names, and returns `false` only on a string such as
`kCameraType)6`, the text cut from the cast of a value without enumerator. -/
theorem C22_name_validity_throws (T : utils.EnumType) :
    is_camera_model_name_valid T "" =
        Except.error (utils.Exception.invalid_argument "Invalid enum name: ") ∧
      is_camera_model_name_valid kCameraType "NotACamera" =
        Except.error (utils.Exception.invalid_argument "Invalid enum value: 10") ∧
      kCameraTypeNames.map (is_camera_model_name_valid kCameraType) =
        List.replicate 6 (Except.ok true) ∧
      is_camera_model_name_valid kCameraType "kCameraType)6" = Except.ok false :=
  ⟨rfl, rfl, rfl, rfl⟩

/-- C23, evaluated on the code. `E1 = (Identity, (1, 0, 0))`, `E2 = (quarter turn about the
optical axis, 0)`, world point `(0, 0, 0)`: both rotations are orthonormal, the world-to-camera
transform of `E1 * E2` sends the point to `(0, -1, 0)`, and the transform of `E1` after that of
`E2` sends it to `(-1, 0, 0)`. -/
theorem C23_composition_of_transforms :
    Mat33.IsOrthonormal Mat33.Identity ∧
      Mat33.IsOrthonormal ⟨0, -1, 0, 1, 0, 0, 0, 0, 1⟩ ∧
      ((⟨Mat33.Identity, ⟨1, 0, 0⟩⟩ : CameraExtrinsicParams) *
          ⟨⟨0, -1, 0, 1, 0, 0, 0, 0, 1⟩, ⟨0, 0, 0⟩⟩).operatorCall [⟨0, 0, 0⟩] = [⟨0, -1, 0⟩] ∧
      CameraExtrinsicParams.operatorCall ⟨Mat33.Identity, ⟨1, 0, 0⟩⟩
          (CameraExtrinsicParams.operatorCall ⟨⟨0, -1, 0, 1, 0, 0, 0, 0, 1⟩, ⟨0, 0, 0⟩⟩
            [⟨0, 0, 0⟩]) = [⟨-1, 0, 0⟩] ∧
      ((⟨Mat33.Identity, ⟨1, 0, 0⟩⟩ : CameraExtrinsicParams) *
          ⟨⟨0, -1, 0, 1, 0, 0, 0, 0, 1⟩, ⟨0, 0, 0⟩⟩).operatorCall [⟨0, 0, 0⟩] ≠
        CameraExtrinsicParams.operatorCall ⟨Mat33.Identity, ⟨1, 0, 0⟩⟩
          (CameraExtrinsicParams.operatorCall ⟨⟨0, -1, 0, 1, 0, 0, 0, 0, 1⟩, ⟨0, 0, 0⟩⟩
            [⟨0, 0, 0⟩]) := by
  have hleft : ((⟨Mat33.Identity, ⟨1, 0, 0⟩⟩ : CameraExtrinsicParams) *
      ⟨⟨0, -1, 0, 1, 0, 0, 0, 0, 1⟩, ⟨0, 0, 0⟩⟩).operatorCall [⟨0, 0, 0⟩] = [⟨0, -1, 0⟩] := by
    norm_num [CameraExtrinsicParams.mul_operatorMul, CameraExtrinsicParams.operatorMul,
      CameraExtrinsicParams.operatorCall, Mat33.mul_def, Mat33.mul, Mat33.mulVec, Mat33.Identity,
      Vec3.add_coords, Vec3.sub_coords]
  have hright : CameraExtrinsicParams.operatorCall ⟨Mat33.Identity, ⟨1, 0, 0⟩⟩
      (CameraExtrinsicParams.operatorCall ⟨⟨0, -1, 0, 1, 0, 0, 0, 0, 1⟩, ⟨0, 0, 0⟩⟩
        [⟨0, 0, 0⟩]) = [⟨-1, 0, 0⟩] := by
    norm_num [CameraExtrinsicParams.operatorCall, Mat33.mulVec, Mat33.Identity, Vec3.sub_coords]
  refine ⟨?_, ?_, hleft, hright, ?_⟩
  · constructor <;> norm_num [Mat33.mul_def, Mat33.mul, Mat33.transpose, Mat33.Identity]
  · constructor <;> norm_num [Mat33.mul_def, Mat33.mul, Mat33.transpose, Mat33.Identity]
  · rw [hleft, hright]
    norm_num

/-- C25, evaluated on the code. `SetPrincipalPoint(cx, cy)` sets `cx_` and leaves everything
else as it was, `cy_` included: after `SetPrincipalPoint(320, 240)` on intrinsics with principal
point `(0, 0)`, `PrincipalPointX()` is 320 and `PrincipalPointY()` is still 0. -/
theorem C25_set_principal_point (s : PinholeIntrinsicParams) (cx cy : ℚ) :
    (s.SetPrincipalPoint cx cy).PrincipalPointX = cx ∧
      (s.SetPrincipalPoint cx cy).PrincipalPointY = s.PrincipalPointY ∧
      (s.SetPrincipalPoint cx cy).FocalLengthX = s.FocalLengthX ∧
      (s.SetPrincipalPoint cx cy).FocalLengthY = s.FocalLengthY ∧
      (s.SetPrincipalPoint cx cy).DistortionParams = s.DistortionParams ∧
      (PinholeIntrinsicParams.SetPrincipalPoint ⟨1000, 1000, 0, 0, []⟩ 320 240).PrincipalPointX =
        320 ∧
      (PinholeIntrinsicParams.SetPrincipalPoint ⟨1000, 1000, 0, 0, []⟩ 320 240).PrincipalPointY =
        0 ∧
      (PinholeIntrinsicParams.SetPrincipalPoint ⟨1000, 1000, 0, 0, []⟩ 320 240).PrincipalPointY ≠
        240 := by
  refine ⟨rfl, rfl, rfl, rfl, rfl, rfl, rfl, ?_⟩
  norm_num [PinholeIntrinsicParams.SetPrincipalPoint, PinholeIntrinsicParams.PrincipalPointY]

end camera
end photogrammetry
